import Mathlib

/-!
Verification of the citation-processing core of Incipit Genie Pro
(file citationparserapp.py): the text normalizer, fingerprint generator,
citation-parsing cascade, the stateful Ibid/short/full history engine and
the incipit sentence locator are embedded as executable Lean functions on
character lists, faithful to the Python source, including the exact
semantics of each regular expression used there and of the replacement
templates.  The dash-normalization replacement template of the source is a
bad escape that CPython's eagerly-run template parser rejects, so the real
normalizer, parser and engine raise on every input; they are embedded in
an error monad, while the normalization the spec identifies as the intent
is embedded separately as the intended-mode functions, and the specified
properties are proved or refuted against these embeddings.
-/

namespace Incipit

/-! ### Character classes (ASCII model of the Python predicates) -/

/-- Python whitespace for str.strip and the regex class \s (ASCII range). -/
def isPySpace (c : Char) : Bool :=
  c == ' ' || c == '\t' || c == '\n' || c == '\r' || c == '\x0b' || c == '\x0c'

/-- Python regex word character \w (ASCII model): letters, digits, underscore. -/
def isPyWord (c : Char) : Bool := c.isAlphanum || c == '_'

/-- Uppercase ASCII letter, the regex class with the letters A to Z. -/
def isUpperAZ (c : Char) : Bool := 'A' ≤ c && c ≤ 'Z'

/-- Lowercase or uppercase ASCII letter. -/
def isAlphaAZ (c : Char) : Bool := c.isAlpha

/-- The en dash character U+2013. -/
def enDash : Char := Char.ofNat 0x2013

/-! ### Python string primitives -/

/-- Model of str.strip with no argument: drop leading whitespace. -/
def pyStripLeft (l : List Char) : List Char := l.dropWhile isPySpace

/-- Model of str.strip with no argument: drop trailing whitespace. -/
def pyStripRight (l : List Char) : List Char := (l.reverse.dropWhile isPySpace).reverse

/-- Model of str.strip with no argument. -/
def pyStrip (l : List Char) : List Char := pyStripRight (pyStripLeft l)

/-- Model of str.strip with an explicit character set. -/
def pyStripChars (cs : List Char) (l : List Char) : List Char :=
  ((l.dropWhile (cs.contains ·)).reverse.dropWhile (cs.contains ·)).reverse

/-- Model of str.rstrip with an explicit character set. -/
def pyRStripChars (cs : List Char) (l : List Char) : List Char :=
  (l.reverse.dropWhile (cs.contains ·)).reverse

/-- Drop a literal prefix, returning the rest on success. -/
def dropLit : List Char → List Char → Option (List Char)
  | [], l => some l
  | _ :: _, [] => none
  | p :: ps, c :: t => if p == c then dropLit ps t else none

/-- Drop a literal prefix case-insensitively (ASCII lowering on both sides). -/
def dropLitCI : List Char → List Char → Option (List Char)
  | [], l => some l
  | _ :: _, [] => none
  | p :: ps, c :: t => if p.toLower == c.toLower then dropLitCI ps t else none

/-- Model of the Python substring test, the operator in: empty needle always
occurs; otherwise some position has the needle as a literal prefix. -/
def hasSub (hay : List Char) (needle : List Char) : Bool :=
  match needle with
  | [] => true
  | _ :: _ =>
    match hay with
    | [] => false
    | _ :: t => (dropLit needle hay).isSome || hasSub t needle

/-- Model of str.split(sep, 1) for a nonempty separator: split at the first
occurrence of the separator, if any. -/
def splitOnceAt (sep : List Char) : List Char → Option (List Char × List Char)
  | [] => none
  | c :: t =>
    match dropLit sep (c :: t) with
    | some rest => some ([], rest)
    | none =>
      match splitOnceAt sep t with
      | some (a, b) => some (c :: a, b)
      | none => none

/-- Model of str.split(',') with a single-character separator and no limit. -/
def splitAllOn (sep : Char) : List Char → List (List Char)
  | [] => [[]]
  | c :: t =>
    let r := splitAllOn sep t
    if c == sep then [] :: r
    else
      match r with
      | h :: rest => (c :: h) :: rest
      | [] => [[c]]

/-- Model of str.split with no argument: words separated by whitespace runs,
with no empty words produced. -/
def pyWordsAux (acc : List Char) : List Char → List (List Char)
  | [] => if acc.isEmpty then [] else [acc.reverse]
  | c :: t =>
    if isPySpace c then
      if acc.isEmpty then pyWordsAux [] t else acc.reverse :: pyWordsAux [] t
    else pyWordsAux (c :: acc) t

/-- Model of str.split with no argument. -/
def pyWords (l : List Char) : List (List Char) := pyWordsAux [] l

/-- Join word lists with single spaces, the Python join on a space. -/
def joinSpace (ws : List (List Char)) : List Char := List.intercalate [' '] ws

/-- Python truthiness of an optional string: None and the empty string are
falsy, everything else truthy. -/
def pyTruthy : Option String → Bool
  | none => false
  | some s => s != ""

/-- Python f-string rendering of a possibly absent value: None prints as the
four letter word None. -/
def pyStr : Option String → String
  | none => "None"
  | some s => s

/-! ### TextNormalizer: clean_text_formatting -/

/-- Looking ahead over whitespace, is the first non-whitespace character a
digit: the lookahead of the page-prefix regex after its \s* part. -/
def firstNonWsIsDigit : List Char → Bool
  | [] => false
  | c :: t => if isPySpace c then firstNonWsIsDigit t else c.isDigit

/-- The lookbehind class of the page-prefix regex: whitespace, open
parenthesis or comma. -/
def pageBehind (c : Char) : Bool := isPySpace c || c == '(' || c == ','

/-- States of the page-prefix removal scanner.  A match of the pattern, one
or two letters p and a dot with a lookbehind character in pageBehind and a
digit after optional whitespace, is recognised one character at a time; the
states record the pending letters already consumed, and skipWs consumes the
whitespace belonging to a recognised match. -/
inductive PageSt where
  | norm (prev : Bool)
  | sawP
  | sawPP
  | skipWs

/-- One left-to-right pass of re.sub removing page prefixes, as a
single-character-step machine.  On a failed partial match the pending
letters are flushed; no new match can begin inside a flushed span because a
match starts with the letter p whose preceding character must lie in
pageBehind, and the flushed spans make that impossible, mirroring how
re.sub rescans from the next position of the original string. -/
def pageSubAux : PageSt → List Char → List Char
  | PageSt.norm _, [] => []
  | PageSt.sawP, [] => ['p']
  | PageSt.sawPP, [] => ['p', 'p']
  | PageSt.skipWs, [] => []
  | PageSt.norm prev, c :: t =>
    if prev && c == 'p' then pageSubAux PageSt.sawP t
    else c :: pageSubAux (PageSt.norm (pageBehind c)) t
  | PageSt.sawP, c :: t =>
    if c == 'p' then pageSubAux PageSt.sawPP t
    else if c == '.' then
      if firstNonWsIsDigit t then pageSubAux PageSt.skipWs t
      else 'p' :: '.' :: pageSubAux (PageSt.norm (pageBehind c)) t
    else 'p' :: c :: pageSubAux (PageSt.norm (pageBehind c)) t
  | PageSt.sawPP, c :: t =>
    if c == '.' then
      if firstNonWsIsDigit t then pageSubAux PageSt.skipWs t
      else 'p' :: 'p' :: '.' :: pageSubAux (PageSt.norm (pageBehind c)) t
    else 'p' :: 'p' :: c :: pageSubAux (PageSt.norm (pageBehind c)) t
  | PageSt.skipWs, c :: t =>
    if isPySpace c then pageSubAux PageSt.skipWs t
    else c :: pageSubAux (PageSt.norm (pageBehind c)) t

/-- The page-prefix removal pass of clean_text_formatting. -/
def pageSub (l : List Char) : List Char := pageSubAux (PageSt.norm false) l

/-- States of the dash scanner: nothing pending, a digit just emitted, or a
digit followed by a pending hyphen. -/
inductive DashSt where
  | plain
  | digit
  | digitDash

/-- The dash normalization pass of clean_text_formatting as a
single-character-step machine: each leftmost, non-overlapping
digit-hyphen-digit occurrence becomes digit, en dash, digit, with scanning
resuming after the second digit, exactly as re.sub does. -/
def dashSubAux : DashSt → List Char → List Char
  | DashSt.plain, [] => []
  | DashSt.digit, [] => []
  | DashSt.digitDash, [] => ['-']
  | DashSt.plain, c :: t =>
    c :: dashSubAux (if c.isDigit then DashSt.digit else DashSt.plain) t
  | DashSt.digit, c :: t =>
    if c == '-' then dashSubAux DashSt.digitDash t
    else c :: dashSubAux (if c.isDigit then DashSt.digit else DashSt.plain) t
  | DashSt.digitDash, c :: t =>
    if c.isDigit then enDash :: c :: dashSubAux DashSt.plain t
    else '-' :: c :: dashSubAux (if c.isDigit then DashSt.digit else DashSt.plain) t

/-- The dash normalization pass that the replacement template of the dash
re.sub denotes: group one, the en dash, group two.  The shipped template
never parses (see parse_template below), so the running program never
performs this substitution; it is the behavior of the success branch and of
the spec-intended normalizer. -/
def dashSub (l : List Char) : List Char := dashSubAux DashSt.plain l

/-- Errors of the CPython replacement-template parser relevant to this
program, each carrying the reported position: a bad escape of an ASCII
letter at the position of its backslash, a trailing backslash, a malformed
or out-of-range group reference, and an octal escape out of range. -/
inductive ReError where
  | badEscape (c : Char) (pos : Nat)
  | badEscapeEnd
  | missingLt
  | badGroupName (pos : Nat)
  | invalidGroupRef (index pos : Nat)
  | octalOutOfRange (pos : Nat)
deriving DecidableEq

/-- A parsed replacement-template piece: a literal character or a group
reference. -/
inductive TemplatePiece where
  | lit (c : Char)
  | group (n : Nat)
deriving DecidableEq

/-- Octal digit test of the template parser. -/
def isOctDigit (c : Char) : Bool := '0' ≤ c && c ≤ '7'

/-- Decimal value of a digit list. -/
def digitsToNat (ds : List Char) : Nat :=
  ds.foldl (fun a c => a * 10 + (c.toNat - '0'.toNat)) 0

/-- Octal value of a digit list. -/
def octToNat (ds : List Char) : Nat :=
  ds.foldl (fun a c => a * 8 + (c.toNat - '0'.toNat)) 0

/-- The fixed escape table of the template parser, keyed by the character
after the backslash and giving the code point it stands for: these are the
only letter escapes that templates accept. -/
def templateEscape (c : Char) : Option Char :=
  match c with
  | 'a' => some (Char.ofNat 7)
  | 'b' => some (Char.ofNat 8)
  | 'f' => some (Char.ofNat 12)
  | 'n' => some (Char.ofNat 10)
  | 'r' => some (Char.ofNat 13)
  | 't' => some (Char.ofNat 9)
  | 'v' => some (Char.ofNat 11)
  | '\\' => some (Char.ofNat 92)
  | _ => none

/-- Model of the CPython replacement-template parser parse_template,
scoped to string templates with numeric group names (identifier names in
angle brackets, which this program's templates do not use, report a
bad-group-name error instead of a name lookup).  The parser runs eagerly
when re.sub is called, before any match is attempted: a backslash followed
by an ASCII letter outside the escape table is rejected with a bad-escape
error at the position of the backslash.  The fuel argument only bounds the
recursion and is set to the template length, more than the number of
steps, each of which consumes at least one character. -/
def parse_templateF (groups : Nat) : Nat → Nat → List Char → Except ReError (List TemplatePiece)
  | 0, _, _ => Except.ok []
  | _ + 1, _, [] => Except.ok []
  | fuel + 1, i, c :: rest =>
    if c == '\\' then
      match rest with
      | [] => Except.error ReError.badEscapeEnd
      | d :: rest2 =>
        if d == 'g' then
          match rest2 with
          | '<' :: r3 =>
            let name := r3.takeWhile (· != '>')
            (match r3.drop name.length with
             | '>' :: r4 =>
               if name.isEmpty then Except.error (ReError.badGroupName (i + 3))
               else if name.all Char.isDigit then
                 let idx := digitsToNat name
                 if idx > groups then Except.error (ReError.invalidGroupRef idx (i + 3))
                 else
                   (parse_templateF groups fuel (i + name.length + 4) r4).map
                     (TemplatePiece.group idx :: ·)
               else Except.error (ReError.badGroupName (i + 3))
             | _ => Except.error (ReError.badGroupName (i + 3)))
          | _ => Except.error ReError.missingLt
        else if d == '0' then
          match rest2 with
          | e1 :: r3 =>
            if isOctDigit e1 then
              match r3 with
              | e2 :: r4 =>
                if isOctDigit e2 then
                  (parse_templateF groups fuel (i + 4) r4).map
                    (TemplatePiece.lit (Char.ofNat (octToNat ['0', e1, e2] % 256)) :: ·)
                else
                  (parse_templateF groups fuel (i + 3) r3).map
                    (TemplatePiece.lit (Char.ofNat (octToNat ['0', e1] % 256)) :: ·)
              | [] =>
                (parse_templateF groups fuel (i + 3) r3).map
                  (TemplatePiece.lit (Char.ofNat (octToNat ['0', e1] % 256)) :: ·)
            else
              (parse_templateF groups fuel (i + 2) rest2).map
                (TemplatePiece.lit (Char.ofNat 0) :: ·)
          | [] =>
            (parse_templateF groups fuel (i + 2) rest2).map
              (TemplatePiece.lit (Char.ofNat 0) :: ·)
        else if d.isDigit then
          match rest2 with
          | e1 :: r3 =>
            if e1.isDigit then
              match r3 with
              | e2 :: r4 =>
                if isOctDigit d && isOctDigit e1 && isOctDigit e2 then
                  let v := octToNat [d, e1, e2]
                  if v > 255 then Except.error (ReError.octalOutOfRange i)
                  else
                    (parse_templateF groups fuel (i + 4) r4).map
                      (TemplatePiece.lit (Char.ofNat v) :: ·)
                else
                  let idx := digitsToNat [d, e1]
                  if idx > groups then Except.error (ReError.invalidGroupRef idx (i + 1))
                  else
                    (parse_templateF groups fuel (i + 3) r3).map
                      (TemplatePiece.group idx :: ·)
              | [] =>
                let idx := digitsToNat [d, e1]
                if idx > groups then Except.error (ReError.invalidGroupRef idx (i + 1))
                else
                  (parse_templateF groups fuel (i + 3) r3).map
                    (TemplatePiece.group idx :: ·)
            else
              let idx := digitsToNat [d]
              if idx > groups then Except.error (ReError.invalidGroupRef idx (i + 1))
              else
                (parse_templateF groups fuel (i + 2) rest2).map
                  (TemplatePiece.group idx :: ·)
          | [] =>
            let idx := digitsToNat [d]
            if idx > groups then Except.error (ReError.invalidGroupRef idx (i + 1))
            else
              (parse_templateF groups fuel (i + 2) rest2).map
                (TemplatePiece.group idx :: ·)
        else
          match templateEscape d with
          | some ch =>
            (parse_templateF groups fuel (i + 2) rest2).map (TemplatePiece.lit ch :: ·)
          | none =>
            if d.isAlpha then Except.error (ReError.badEscape d i)
            else
              (parse_templateF groups fuel (i + 2) rest2).map
                (fun ps => TemplatePiece.lit '\\' :: TemplatePiece.lit d :: ps)
    else (parse_templateF groups fuel (i + 1) rest).map (TemplatePiece.lit c :: ·)

/-- The template parser applied to a whole template, for a pattern with the
given number of capture groups. -/
def parse_template (groups : Nat) (tmpl : List Char) : Except ReError (List TemplatePiece) :=
  parse_templateF groups tmpl.length 0 tmpl

/-- The replacement template of the dash substitution, the ten characters
the raw-string literal on the dash line denotes: backslash one, backslash u
two zero one three, backslash two. -/
def dashTemplate : List Char := "\\1\\u2013\\2".data

/-- Embedding of CitationManager.clean_text_formatting as the source runs
it.  The page-prefix pass succeeds, but the dash pass hands re.sub the raw
template above, which the eagerly-run template parser rejects, backslash-u
being a bad escape; the call therefore raises for every input, before any
matching, and the strip line is never reached.  The success branch, which
the shipped template never takes, applies the substitution the template
denotes. -/
def clean_text_formatting (s : String) : Except ReError String :=
  let t1 := pageSub s.data
  match parse_template 2 dashTemplate with
  | Except.error e => Except.error e
  | Except.ok _ => Except.ok ⟨pyStrip (dashSub t1)⟩

/-- Modelled from the spec: the intended text normalization, with the
digit-hyphen-digit to digit-en-dash-digit substitution actually performed
and the result stripped — the behavior the spec describes and its design
notes identify as the intent behind the broken escape form. -/
def clean_text_formatting_intended (s : String) : String :=
  ⟨pyStrip (dashSub (pageSub s.data))⟩

/-! ### FingerprintGenerator: generate_fingerprint -/

/-- Normalization used by the fingerprint: remove every non-word character
and lower the case, the composition of the re.sub with the class \W and the
lower method. -/
def normWord (s : String) : List Char := (s.data.filter isPyWord).map Char.toLower

/-- Embedding of CitationManager.generate_fingerprint. -/
def generate_fingerprint (author title : Option String) : Option String :=
  if !pyTruthy title then none
  else
    let t := match title with | some t => t | none => ""
    let auth_str : List Char :=
      if pyTruthy author then normWord (match author with | some a => a | none => "")
      else "no_auth".data
    some ⟨auth_str ++ '_' :: (normWord t).take 25⟩

/-! ### get_short_title -/

/-- Try to strip one leading article followed by whitespace, the regex
alternation applied at the start of the string. -/
def stripArticleTry (art : List Char) (l : List Char) : Option (List Char) :=
  match dropLit art l with
  | some (c :: rest) =>
    if isPySpace c then some ((c :: rest).dropWhile isPySpace) else none
  | _ => none

/-- Strip a leading The, A or An followed by whitespace, with the
alternatives tried in the order they occur in the regex. -/
def stripArticle (l : List Char) : List Char :=
  match stripArticleTry "The".data l with
  | some r => r
  | none =>
    match stripArticleTry "A".data l with
    | some r => r
    | none =>
      match stripArticleTry "An".data l with
      | some r => r
      | none => l

/-- Embedding of CitationManager.get_short_title. -/
def get_short_title (full_title : Option String) : String :=
  if !pyTruthy full_title then ""
  else
    let ft := (match full_title with | some t => t | none => "").data
    let short := if ft.contains ':' then (splitAllOn ':' ft).headD [] else ft
    let short2 := stripArticle short
    let ws := pyWords short2
    if ws.length > 5 then ⟨joinSpace (ws.take 5)⟩ else ⟨short2⟩

/-! ### CitationRecord -/

/-- The citation record built by parse_citation: the dictionary shape used
throughout the Python code, with absent or None-valued entries modelled as
none.  The fingerprint field is written by process just before a record is
appended to the history. -/
structure Record where
  raw : String := ""
  ctype : String := "generic"
  author : Option String := none
  title : Option String := none
  pub : Option String := none
  page : Option String := none
  details : Option String := none
  fingerprint : Option String := none
deriving DecidableEq

/-! ### Page extraction -/

/-- Attempt of the trailing-page regex at one position: a comma or period,
optional whitespace, a digit run, an optional hyphen or en dash with a
further digit run, an optional final period, then the end of the string
(or a lone final newline, where the dollar anchor also matches).  Returns
the captured group, the page reference without the final period. -/
def pageAtEnd : List Char → Bool
  | [] => true
  | [c] => c == '\n'
  | _ => false

/-- After the captured group, an optional period followed by the end anchor. -/
def optDotEnd (l : List Char) : Bool :=
  pageAtEnd l ||
    match l with
    | '.' :: r => pageAtEnd r
    | _ => false

/-- Match of the trailing-page pattern starting at the head of the list. -/
def pageMatchAt (l : List Char) : Option (List Char) :=
  match l with
  | c :: t =>
    if c == ',' || c == '.' then
      let t1 := t.dropWhile isPySpace
      let d1 := t1.takeWhile Char.isDigit
      let t2 := t1.dropWhile Char.isDigit
      if d1.isEmpty then none
      else
        match t2 with
        | d :: t3 =>
          if d == '-' || d == enDash then
            let d2 := t3.takeWhile Char.isDigit
            let t4 := t3.dropWhile Char.isDigit
            if optDotEnd t4 then some (d1 ++ d :: d2) else none
          else if optDotEnd t2 then some d1
          else none
        | [] => some d1
    else none
  | [] => none

/-- Leftmost search of the trailing-page pattern, as re.search does,
returning the match position and the captured page group. -/
def pageSearchAux (i : Nat) : List Char → Option (Nat × List Char)
  | [] => none
  | c :: t =>
    match pageMatchAt (c :: t) with
    | some g => some (i, g)
    | none => pageSearchAux (i + 1) t

/-! ### parse_archival -/

/-- Drop a case-insensitive literal keyword from the front, returning the
original characters consumed together with the remainder. -/
def takeLitCI (lit : List Char) (l : List Char) : Option (List Char × List Char) :=
  match dropLitCI lit l with
  | some rest => some (l.take lit.length, rest)
  | none => none

/-- First case-insensitive alternative of a regex alternation that matches,
returning the original consumed characters and the remainder. -/
def firstAltCI : List String → List Char → Option (List Char × List Char)
  | [], _ => none
  | a :: alts, l =>
    match takeLitCI a.data l with
    | some r => some r
    | none => firstAltCI alts l

/-- Tail of archival pattern one after its lazy group: optional whitespace,
a comma, optional whitespace, one of the container keywords, whitespace and
a digit run.  Returns the consumed span of the original text. -/
def archTail1 (l : List Char) : Option (List Char) :=
  let ws1 := l.takeWhile isPySpace
  match l.dropWhile isPySpace with
  | ',' :: r2 =>
    let ws2 := r2.takeWhile isPySpace
    let r3 := r2.dropWhile isPySpace
    match firstAltCI ["Box", "Folder", "Tape", "Reel", "Carton"] r3 with
    | some (kw, r4) =>
      let ws3 := r4.takeWhile isPySpace
      let r5 := r4.dropWhile isPySpace
      if ws3.isEmpty then none
      else
        let ds := r5.takeWhile Char.isDigit
        if ds.isEmpty then none
        else some (ws1 ++ ',' :: ws2 ++ kw ++ ws3 ++ ds)
    | none => none
  | _ => none

/-- Tail of archival pattern two: whitespace, the word Arbitration,
whitespace, one of Video, Tape or Transcript with an optional plural s, and
an optional comma part extending over the rest of the line, all
case-insensitive, mirroring how the greedy optional parts extend the full
match. -/
def archTail2 (l : List Char) : Option (List Char) :=
  let ws1 := l.takeWhile isPySpace
  if ws1.isEmpty then none
  else
    match takeLitCI "Arbitration".data (l.dropWhile isPySpace) with
    | some (arb, r2) =>
      let ws2 := r2.takeWhile isPySpace
      let r3 := r2.dropWhile isPySpace
      if ws2.isEmpty then none
      else
        match firstAltCI ["Video", "Tape", "Transcript"] r3 with
        | some (kw, r4) =>
          let (plural, r5) : List Char × List Char :=
            match r4 with
            | s :: r5 => if s == 's' || s == 'S' then ([s], r5) else ([], r4)
            | [] => ([], r4)
          let commaPart : List Char :=
            match r5 with
            | ',' :: r6 =>
              let ws3 := r6.takeWhile isPySpace
              let body := (r6.dropWhile isPySpace).takeWhile (· != '\n')
              if body.isEmpty then [] else ',' :: ws3 ++ body
            | _ => []
          some (ws1 ++ arb ++ ws2 ++ kw ++ plural ++ commaPart)
        | none => none
    | none => none

/-- Tail of archival patterns three to five: whitespace, a keyword with an
optional plural s, optional whitespace, a comma, optional whitespace and a
nonempty rest of line. -/
def archTailKw (kw : String) (allowS : Bool) (l : List Char) : Option (List Char) :=
  let ws1 := l.takeWhile isPySpace
  if ws1.isEmpty then none
  else
    match takeLitCI kw.data (l.dropWhile isPySpace) with
    | some (kwc, r2) =>
      let (plural, r3) : List Char × List Char :=
        match r2 with
        | s :: r3 => if allowS && (s == 's' || s == 'S') then ([s], r3) else ([], r2)
        | [] => ([], r2)
      let ws2 := r3.takeWhile isPySpace
      match r3.dropWhile isPySpace with
      | ',' :: r4 =>
        let ws3 := r4.takeWhile isPySpace
        let body := (r4.dropWhile isPySpace).takeWhile (· != '\n')
        if body.isEmpty then none
        else some (ws1 ++ kwc ++ plural ++ ws2 ++ ',' :: ws3 ++ body)
      | _ => none
    | none => none

/-- Tail of archival pattern six: whitespace, Personal, whitespace, Archive,
and an optional comma part, case-insensitive. -/
def archTail6 (l : List Char) : Option (List Char) :=
  let ws1 := l.takeWhile isPySpace
  if ws1.isEmpty then none
  else
    match takeLitCI "Personal".data (l.dropWhile isPySpace) with
    | some (p1, r2) =>
      let ws2 := r2.takeWhile isPySpace
      if ws2.isEmpty then none
      else
        match takeLitCI "Archive".data (r2.dropWhile isPySpace) with
        | some (p2, r3) =>
          let commaPart : List Char :=
            match r3 with
            | ',' :: r4 =>
              let ws3 := r4.takeWhile isPySpace
              let body := (r4.dropWhile isPySpace).takeWhile (· != '\n')
              if body.isEmpty then [] else ',' :: ws3 ++ body
            | _ => []
          some (ws1 ++ p1 ++ ws2 ++ p2 ++ commaPart)
        | none => none
    | none => none

/-- Lazy group engine for the archival patterns, all anchored at the start:
the shortest nonempty prefix of non-newline characters after which the tail
matcher succeeds, exactly the semantics of a lazy dot group followed by the
rest of the pattern.  Returns the group and the span the tail consumed. -/
def lazyMatch (tailFn : List Char → Option (List Char)) :
    List Char → List Char → Option (List Char × List Char)
  | _, [] => none
  | accRev, c :: t =>
    if c == '\n' then none
    else
      match tailFn t with
      | some consumed => some ((c :: accRev).reverse, consumed)
      | none => lazyMatch tailFn (c :: accRev) t

/-- Embedding of CitationManager.parse_archival: the six patterns are tried
in order; on a match, if the word Arbitration occurs anywhere in the text
(case-sensitively) the title is the full match up to its first comma and the
details are the whole text, otherwise the title is the stripped lazy group
and the details the full match. -/
def parse_archival (text : String) : Option Record :=
  let l := text.data
  let res : Option (List Char × List Char) :=
    match lazyMatch archTail1 [] l with
    | some r => some r
    | none =>
    match lazyMatch archTail2 [] l with
    | some r => some r
    | none =>
    match lazyMatch (archTailKw "Papers" false) [] l with
    | some r => some r
    | none =>
    match lazyMatch (archTailKw "Archive" true) [] l with
    | some r => some r
    | none =>
    match lazyMatch (archTailKw "Collection" false) [] l with
    | some r => some r
    | none => lazyMatch archTail6 [] l
  match res with
  | none => none
  | some (g1, consumed) =>
    if hasSub l "Arbitration".data then
      some { ctype := "archival", author := none,
             title := some ⟨(splitAllOn ',' (g1 ++ consumed)).headD []⟩,
             details := some text }
    else
      some { ctype := "archival", author := none,
             title := some ⟨pyStrip g1⟩, details := some ⟨g1 ++ consumed⟩ }

/-! ### parse_transcript and the legal test -/

/-- Embedding of CitationManager.parse_transcript. -/
def parse_transcript (text : String) : Option Record :=
  let l := text.data
  if hasSub l "Deposition".data || hasSub l "Testimony".data || hasSub l "Transcript".data then
    let parts := splitAllOn ',' l
    let head := pyStrip (parts.headD [])
    let pub : Option String :=
      match parts with
      | _ :: p1 :: _ => some ⟨pyStrip p1⟩
      | _ => none
    some { ctype := "transcript", author := some ⟨head⟩, title := some ⟨head⟩, pub := pub }
  else none

/-- One-position attempt of the legal regex: whitespace, the letter v, a
period, whitespace. -/
def legalAt : List Char → Bool
  | a :: 'v' :: '.' :: d :: _ => isPySpace a && isPySpace d
  | _ => false

/-- Search for the legal party-versus-party pattern anywhere in the text. -/
def legalSearch : List Char → Bool
  | [] => false
  | c :: t => legalAt (c :: t) || legalSearch t

/-! ### parse_medical -/

/-- The fixed journal list of the CitationManager constructor, in its
source order. -/
def med_journals : List String :=
  ["Am J Psychiatry", "American Journal of Psychiatry",
   "JAMA", "NEJM", "New England Journal of Medicine",
   "Arch Gen Psychiatry", "Archives of General Psychiatry",
   "Lancet", "BMJ", "British Medical Journal",
   "Psychiatric Services", "J Clin Psychiatry", "Journal of Clinical Psychiatry",
   "Biological Psychiatry", "Psychological Medicine",
   "Hospital and Community Psychiatry", "Bulletin of the Menninger Clinic",
   "J Nerv Ment Dis", "Journal of Nervous and Mental Disease"]

/-- Model of the Python two-variable unpacking of str.split(sep, 1): an
empty separator raises, a separator that does not occur yields a single
part and the unpacking raises, otherwise the two parts around the first
occurrence are returned. -/
def pySplitOnce2 (sep : String) (s : String) : Except Unit (String × String) :=
  if sep == "" then Except.error ()
  else
    match splitOnceAt sep.data s.data with
    | some (a, b) => Except.ok (⟨a⟩, ⟨b⟩)
    | none => Except.error ()

/-- Class of the lookahead in the author-title splitting regex: an
uppercase letter, a double quote, an apostrophe or a left curly double
quotation mark. -/
def dotCapClass (c : Char) : Bool :=
  isUpperAZ c || c == '"' || c == '\'' || c == Char.ofNat 0x201C

/-- After a period, is there at least one whitespace character followed by a
character of the lookahead class. -/
def dotCapBoundary (t : List Char) : Bool :=
  match t with
  | c :: _ =>
    isPySpace c &&
      (match t.dropWhile isPySpace with
       | d :: _ => dotCapClass d
       | [] => false)
  | [] => false

/-- Splitting on the first period-whitespace-capital boundary, the re.split
with a limit of one used for author-title separation: the separator, the
period and the whitespace run, is removed. -/
def splitDotCap1Aux (acc : List Char) : List Char → List Char × Option (List Char)
  | [] => (acc.reverse, none)
  | c :: t =>
    if c == '.' && dotCapBoundary t then (acc.reverse, some (t.dropWhile isPySpace))
    else splitDotCap1Aux (c :: acc) t

/-- The parts produced by the limited author-title split. -/
def splitDotCap1 (l : List Char) : List (List Char) :=
  match splitDotCap1Aux [] l with
  | (a, none) => [a]
  | (a, some b) => [a, b]

/-- States of the et-al normalization scanner, holding the original pending
characters of a partial match so they can be flushed on failure. -/
inductive EtSt where
  | n (prevWord : Bool)
  | e (c1 : Char)
  | et (c1 c2 : Char)
  | ws (c1 c2 : Char) (wsRev : List Char)
  | eta (c1 c2 : Char) (wsRev : List Char) (c3 : Char)
  | dotQ (c1 c2 : Char) (wsRev : List Char) (c3 c4 : Char)

/-- The replacement text of the et-al normalization. -/
def etalRepl : List Char := ['e', 't', ' ', 'a', 'l', '.']

/-- The et-al normalization of re.sub with the word-boundary pattern: a
case-insensitive et, whitespace, al and an optional period, starting at a
word boundary, is replaced by the literal lowercase et al with a period.
A failed partial match is flushed; no new match can start inside a flushed
span except at its very first character, which is exactly the position the
scanner already tried, so flushing is faithful to the rescan of re.sub. -/
def etalAux : EtSt → List Char → List Char
  | EtSt.n _, [] => []
  | EtSt.e c1, [] => [c1]
  | EtSt.et c1 c2, [] => [c1, c2]
  | EtSt.ws c1 c2 wsRev, [] => c1 :: c2 :: wsRev.reverse
  | EtSt.eta c1 c2 wsRev c3, [] => c1 :: c2 :: wsRev.reverse ++ [c3]
  | EtSt.dotQ _ _ _ _ _, [] => etalRepl
  | EtSt.n prevWord, c :: t =>
    if !prevWord && (c == 'e' || c == 'E') then etalAux (EtSt.e c) t
    else c :: etalAux (EtSt.n (isPyWord c)) t
  | EtSt.e c1, c :: t =>
    if c == 't' || c == 'T' then etalAux (EtSt.et c1 c) t
    else c1 :: c :: etalAux (EtSt.n (isPyWord c)) t
  | EtSt.et c1 c2, c :: t =>
    if isPySpace c then etalAux (EtSt.ws c1 c2 [c]) t
    else c1 :: c2 :: c :: etalAux (EtSt.n (isPyWord c)) t
  | EtSt.ws c1 c2 wsRev, c :: t =>
    if isPySpace c then etalAux (EtSt.ws c1 c2 (c :: wsRev)) t
    else if c == 'a' || c == 'A' then etalAux (EtSt.eta c1 c2 wsRev c) t
    else if c == 'e' || c == 'E' then
      (c1 :: c2 :: wsRev.reverse) ++ etalAux (EtSt.e c) t
    else (c1 :: c2 :: wsRev.reverse) ++ c :: etalAux (EtSt.n (isPyWord c)) t
  | EtSt.eta c1 c2 wsRev c3, c :: t =>
    if c == 'l' || c == 'L' then etalAux (EtSt.dotQ c1 c2 wsRev c3 c) t
    else (c1 :: c2 :: wsRev.reverse ++ [c3]) ++ c :: etalAux (EtSt.n (isPyWord c)) t
  | EtSt.dotQ _ _ _ _ _, c :: t =>
    if c == '.' then etalRepl ++ etalAux (EtSt.n false) t
    else etalRepl ++ c :: etalAux (EtSt.n (isPyWord c)) t

/-- The et-al normalization applied to a whole author string. -/
def etalSub (l : List Char) : List Char := etalAux (EtSt.n false) l

/-- The author cleaning step of the medical matcher: normalize et-al
variants, then reorder a Last, First name unless an et-al form is present. -/
def cleanMedAuthor (author : String) : String :=
  let a1 : List Char := etalSub author.data
  if a1.contains ',' && !(hasSub a1 "et al.".data) then
    match splitOnceAt [','] a1 with
    | some (last, first) => ⟨pyStrip first ++ ' ' :: pyStrip last⟩
    | none => ⟨a1⟩
  else ⟨a1⟩

/-- The body of the try block of the medical matcher for one journal
candidate, in the exception monad: the only failure point is the
two-variable unpacking of the split around the journal name. -/
def medBody (journal : String) (text : String) : Except Unit Record :=
  match pySplitOnce2 journal text with
  | Except.error e => Except.error e
  | Except.ok (pre_j, post_j) =>
    let parts := splitDotCap1 (pyStrip pre_j.data)
    let author0 : String := ⟨pyStrip (parts.headD [])⟩
    let title : String :=
      match parts with
      | _ :: p1 :: _ => ⟨pyStripChars [' ', '.'] p1⟩
      | _ => "Title Unknown"
    let author := if author0 == "" then author0 else cleanMedAuthor author0
    Except.ok { ctype := "medical", author := some author, title := some title,
                pub := some (journal ++ " " ++ (⟨pyStrip post_j.data⟩ : String)) }

/-- Embedding of CitationManager.parse_medical: journals are tried in the
order of the constructor list; a candidate whose substring test fails is
skipped, and a candidate whose body raises is swallowed by the bare except
and the cascade continues with the next journal. -/
def parse_medical (js : List String) (text : String) : Option Record :=
  match js with
  | [] => none
  | j :: rest =>
    if hasSub text.data j.data then
      match medBody j text with
      | Except.ok r => some r
      | Except.error _ => parse_medical rest text
    else parse_medical rest text

/-! ### Book pattern and author pattern -/

/-- The character class before the colon of the publication pattern: ASCII
letters, whitespace and the period. -/
def pubClass (c : Char) : Bool := isAlphaAZ c || isPySpace c || c == '.'

/-- Attempt of the publication regex at one position: an optional opening
parenthesis, a nonempty run of pubClass characters, a colon, optional
whitespace, a nonempty run free of commas and parentheses, a comma,
optional whitespace and four digits.  Returns the captured group. -/
def pubMatchAt (l : List Char) : Option (List Char) :=
  let l1 := match l with | '(' :: r => r | _ => l
  let run1 := l1.takeWhile pubClass
  let r1 := l1.dropWhile pubClass
  if run1.isEmpty then none
  else
    match r1 with
    | ':' :: r2 =>
      let ws := r2.takeWhile isPySpace
      let r3 := r2.dropWhile isPySpace
      let run2 := r3.takeWhile (fun c => !(c == ',' || c == '(' || c == ')'))
      let r4 := r3.dropWhile (fun c => !(c == ',' || c == '(' || c == ')'))
      if run2.isEmpty then none
      else
        match r4 with
        | ',' :: r5 =>
          let ws2 := r5.takeWhile isPySpace
          let r6 := r5.dropWhile isPySpace
          match r6 with
          | d1 :: d2 :: d3 :: d4 :: _ =>
            if d1.isDigit && d2.isDigit && d3.isDigit && d4.isDigit then
              some (run1 ++ ':' :: ws ++ run2 ++ ',' :: ws2 ++ [d1, d2, d3, d4])
            else none
          | _ => none
        | _ => none
    | _ => none

/-- Leftmost search of the publication pattern, returning the match
position and the captured group. -/
def pubSearchAux (i : Nat) : List Char → Option (Nat × List Char)
  | [] => none
  | c :: t =>
    match pubMatchAt (c :: t) with
    | some g => some (i, g)
    | none => pubSearchAux (i + 1) t

/-- Characters allowed in the first name run of the author pattern. -/
def nameChar (c : Char) : Bool := isPyWord c || c == '-' || c == '\''

/-- Characters allowed in the second name run of the author pattern, which
additionally admits the period. -/
def nameDotChar (c : Char) : Bool := nameChar c || c == '.'

/-- The part of the author pattern from the comma separating last and first
name: a comma, whitespace, an uppercase letter, a nonempty name run and an
optional whitespace-initial-period tail.  Returns the consumed span. -/
def authCore (l : List Char) : Option (List Char) :=
  match l with
  | ',' :: r1 =>
    let ws := r1.takeWhile isPySpace
    let r2 := r1.dropWhile isPySpace
    if ws.isEmpty then none
    else
      match r2 with
      | c2 :: r3 =>
        if isUpperAZ c2 then
          let run2 := r3.takeWhile nameDotChar
          let r4 := r3.dropWhile nameDotChar
          if run2.isEmpty then none
          else
            let ws2 := r4.takeWhile isPySpace
            let r5 := r4.dropWhile isPySpace
            let tailOpt : List Char :=
              match r5 with
              | u :: '.' :: _ =>
                if !ws2.isEmpty && isUpperAZ u then ws2 ++ [u, '.'] else []
              | _ => []
            some (',' :: ws ++ c2 :: run2 ++ tailOpt)
        else none
      | [] => none
  | _ => none

/-- The optional generational suffix group of the author pattern: a comma,
whitespace and one of the case-sensitive literals Jr period, Sr period or
III.  Returns the consumed span. -/
def authSuffixGrp (l : List Char) : Option (List Char) :=
  match l with
  | ',' :: r1 =>
    let ws := r1.takeWhile isPySpace
    let r2 := r1.dropWhile isPySpace
    if ws.isEmpty then none
    else
      match dropLit "Jr.".data r2 with
      | some _ => some (',' :: ws ++ "Jr.".data)
      | none =>
        match dropLit "Sr.".data r2 with
        | some _ => some (',' :: ws ++ "Sr.".data)
        | none =>
          match dropLit "III".data r2 with
          | some _ => some (',' :: ws ++ "III".data)
          | none => none
  | _ => none

/-- Anchored match of the author pattern at the start of the
pre-publication segment, with the backtracking of the optional suffix
group: the group is tried greedily and abandoned when the rest of the
pattern cannot follow it.  Returns the matched span, the capture group. -/
def authMatch (l : List Char) : Option (List Char) :=
  match l with
  | c1 :: r1 =>
    if isUpperAZ c1 then
      let run1 := r1.takeWhile nameChar
      let r2 := r1.dropWhile nameChar
      if run1.isEmpty then none
      else
        match authSuffixGrp r2 with
        | some suf =>
          (match authCore (r2.drop suf.length) with
           | some core => some (c1 :: run1 ++ suf ++ core)
           | none =>
             match authCore r2 with
             | some core => some (c1 :: run1 ++ core)
             | none => none)
        | none =>
          match authCore r2 with
          | some core => some (c1 :: run1 ++ core)
          | none => none
    else none
  | [] => none

/-! ### parse_citation -/

/-- The parsing cascade of CitationManager.parse_citation after the
cleaning step: extract a trailing page, then try the archival, transcript,
legal, medical and book matchers in order, falling back to the journal or
generic split.  The raw argument fills the raw field of the dictionary
records; the cascade itself works on the cleaned text. -/
def parse_cleaned (raw : String) (cleaned : String) : Record :=
  let pageRes := pageSearchAux 0 cleaned.data
  let page : Option String :=
    match pageRes with
    | some (_, g) => some ⟨g⟩
    | none => none
  let text : String :=
    match pageRes with
    | some (i, _) => ⟨pyRStripChars ['.', ','] (pyStrip (cleaned.data.take i))⟩
    | none => cleaned
  match parse_archival text with
  | some arch => { arch with page := page }
  | none =>
  match parse_transcript text with
  | some tr => { tr with page := page }
  | none =>
  if legalSearch text.data then
    { ctype := "legal", title := some text, page := page, author := none }
  else
  match parse_medical med_journals text with
  | some med => { med with page := page }
  | none =>
  match pubSearchAux 0 text.data with
  | some (i, g) =>
    let pre_pub : List Char := pyRStripChars ['.', ','] (pyStrip (text.data.take i))
    (match authMatch pre_pub with
     | some matched =>
       let title : List Char := pyStripChars ['.', ',', ' '] (pre_pub.drop matched.length)
       let author : String :=
         match splitOnceAt [','] matched with
         | some (last, first) => ⟨pyStrip first ++ ' ' :: pyStrip last⟩
         | none => ⟨matched⟩
       { raw := raw, ctype := "book", pub := some ⟨g⟩, page := page,
         author := some author, title := some ⟨title⟩ }
     | none =>
       match splitDotCap1 pre_pub with
       | [p0, p1] =>
         { raw := raw, ctype := "book", pub := some ⟨g⟩, page := page,
           author := some ⟨pyStrip p0⟩, title := some ⟨pyStrip p1⟩ }
       | _ =>
         { raw := raw, ctype := "book", pub := some ⟨g⟩, page := page,
           title := some ⟨pre_pub⟩ })
  | none =>
    match splitDotCap1 text.data with
    | [p0, p1] =>
      if p0.contains ',' then
        let author : String :=
          match splitOnceAt [','] p0 with
          | some (a0, a1) => ⟨pyStrip a1 ++ ' ' :: pyStrip a0⟩
          | none => ""
        { raw := raw, ctype := "journal", page := page,
          author := some author, title := some ⟨p1⟩ }
      else { raw := raw, ctype := "generic", page := page, title := some text }
    | _ => { raw := raw, ctype := "generic", page := page, title := some text }

/-- Embedding of CitationManager.parse_citation as the source runs it: the
first step cleans the text, outside any try, so the template error of the
dash pass propagates from every call and the cascade below is never
reached in the shipped code. -/
def parse_citation (raw : String) : Except ReError Record :=
  match clean_text_formatting raw with
  | Except.error e => Except.error e
  | Except.ok cleaned => Except.ok (parse_cleaned raw cleaned)

/-- Modelled from the spec: the parsing cascade run over the intended text
normalization, the behavior the spec describes for parse_citation. -/
def parse_citation_intended (raw : String) : Record :=
  parse_cleaned raw (clean_text_formatting_intended raw)

/-! ### CitationHistoryEngine: process -/

/-- The state owned by one CitationManager: the ordered history of
processed records and the seen-works map from fingerprint to the first
record stored under that fingerprint.  The map is modelled as an
association list in which keys are inserted only when absent. -/
structure CMState where
  history : List Record := []
  seen_works : List (Option String × Record) := []
deriving DecidableEq

/-- Lookup in the seen-works map. -/
def seenLookup (m : List (Option String × Record)) (k : Option String) : Option Record :=
  match m with
  | [] => none
  | (k0, r) :: rest => if k0 == k then some r else seenLookup rest k

/-- Membership in the seen-works map. -/
def seenMem (m : List (Option String × Record)) (k : Option String) : Bool :=
  (seenLookup m k).isSome

/-- The optional page suffix appended to every emitted form. -/
def pageSuffix (page : Option String) : String :=
  if pyTruthy page then ", " ++ pyStr page else ""

/-- The short-note body chosen by the seen-works branch of process, before
the page suffix: the pre-comma part of the title for legal records, the
title itself for archival and transcript records, and otherwise the short
title of the first-seen record prefixed with the current author when one
is present. -/
def shortNoteBody (parsed : Record) (prev_data : Record) : String :=
  if parsed.ctype == "legal" then
    ⟨(splitAllOn ',' (pyStr parsed.title).data).headD []⟩
  else if parsed.ctype == "archival" then pyStr parsed.title
  else if parsed.ctype == "transcript" then pyStr parsed.title
  else
    let short_title := get_short_title prev_data.title
    if pyTruthy parsed.author then pyStr parsed.author ++ ", " ++ short_title
    else short_title

/-- The full-note body chosen by the first-occurrence branch of process,
before the page suffix. -/
def fullNoteBody (parsed : Record) : String :=
  if parsed.ctype == "legal" then pyStr parsed.title
  else if parsed.ctype == "archival" then
    pyStr parsed.title ++ ", " ++ (match parsed.details with | some d => d | none => "")
  else if parsed.ctype == "book" && pyTruthy parsed.pub then
    (if pyTruthy parsed.author then pyStr parsed.author ++ ", " else "") ++
      pyStr parsed.title ++ " (" ++ pyStr parsed.pub ++ ")"
  else
    (if pyTruthy parsed.author then pyStr parsed.author ++ ", " else "") ++
      pyStr parsed.title ++
      (if parsed.ctype == "medical" then
        " " ++ (match parsed.pub with | some p => p | none => "") else "")

/-- The Ibid test of process: the history is nonempty and the fingerprint
of its last entry equals the given fingerprint. -/
def ibidCond (st : CMState) (fingerprint : Option String) : Bool :=
  match st.history.getLast? with
  | some prev => prev.fingerprint == fingerprint
  | none => false

/-- The emission and state-update logic of process for a parsed record that
has an author or a title: fingerprint, then Ibid when the fingerprint
equals that of the immediately preceding history entry, a short note when
the fingerprint is already in the seen-works map, and a full note
otherwise, recording the fingerprint on the appended history entry. -/
def emitNote (st : CMState) (parsed : Record) : String × CMState :=
  let fingerprint := generate_fingerprint parsed.author parsed.title
  let parsed' := { parsed with fingerprint := fingerprint }
  if ibidCond st fingerprint then
    ("Ibid." ++ pageSuffix parsed.page,
     { st with history := st.history ++ [parsed'] })
  else
    match seenLookup st.seen_works fingerprint with
    | some prev_data =>
      (shortNoteBody parsed prev_data ++ pageSuffix parsed.page,
       { st with history := st.history ++ [parsed'] })
    | none =>
      (fullNoteBody parsed ++ pageSuffix parsed.page,
       { history := st.history ++ [parsed'],
         seen_works := (fingerprint, parsed') :: st.seen_works })

/-- Embedding of CitationManager.process as the source runs it: the first
statement calls parse_citation, which raises the template error for every
input, so process never returns a string and never updates the history or
the seen-works map; the pass-through and emission branches below the parse
are dead code in the shipped program. -/
def process (st : CMState) (raw_text : String) : Except ReError (String × CMState) :=
  match parse_citation raw_text with
  | Except.error e => Except.error e
  | Except.ok parsed =>
    if !pyTruthy parsed.title && !pyTruthy parsed.author then
      match clean_text_formatting raw_text with
      | Except.error e => Except.error e
      | Except.ok cleaned => Except.ok (cleaned, st)
    else Except.ok (emitNote st parsed)

/-- Modelled from the spec: the history engine over the intended text
normalization — parse, pass through records with neither author nor title,
otherwise emit and record through emitNote. -/
def process_intended (st : CMState) (raw_text : String) : String × CMState :=
  let parsed := parse_citation_intended raw_text
  if !pyTruthy parsed.title && !pyTruthy parsed.author then
    (clean_text_formatting_intended raw_text, st)
  else emitNote st parsed

/-- Outputs of the intended-mode engine on a list of raw note texts
processed on a fresh manager, in order. -/
def processAll_intended (raws : List String) : List String :=
  (raws.foldl
    (fun (acc : List String × CMState) r =>
      let (out, st) := process_intended acc.2 r
      (acc.1 ++ [out], st))
    ([], {})).1

/-- Final intended-mode engine state after processing a list of raw note
texts on a fresh manager. -/
def processState_intended (raws : List String) : CMState :=
  raws.foldl (fun st r => (process_intended st r).2) {}

/-! ### IncipitExtractor -/

/-- Sentence-ending punctuation of the splitting regex. -/
def sentencePunct (c : Char) : Bool := c == '.' || c == '?' || c == '!'

/-- From a position starting with whitespace, does an uppercase letter
follow the whitespace run, the forward context a split boundary needs. -/
def wsThenUpper (l : List Char) : Bool :=
  match l.dropWhile isPySpace with
  | c :: _ => isUpperAZ c
  | [] => false

/-- States of the sentence splitter: accumulating a fragment with the
previous original character in hand, or consuming the whitespace run of a
recognised boundary. -/
inductive SentSt where
  | norm (prev : Option Char) (accRev : List Char)
  | skip

/-- The sentence splitter of get_sentence_start.  As compiled, the negative
lookbehinds of the pattern are vacuous: each is a sequence of letters, yet
the position they test sits just after a character that the positive
lookbehind forces to be sentence punctuation, so no abbreviation can ever
match there.  A boundary is therefore exactly punctuation, whitespace, then
an uppercase letter, and the whitespace run is consumed as the separator. -/
def splitSentencesAux : SentSt → List Char → List (List Char)
  | SentSt.norm _ accRev, [] => [accRev.reverse]
  | SentSt.skip, [] => [[]]
  | SentSt.norm prev accRev, c :: t =>
    if isPySpace c &&
        (match prev with | some p => sentencePunct p | none => false) &&
        wsThenUpper (c :: t) then
      accRev.reverse :: splitSentencesAux SentSt.skip t
    else splitSentencesAux (SentSt.norm (some c) (c :: accRev)) t
  | SentSt.skip, c :: t =>
    if isPySpace c then splitSentencesAux SentSt.skip t
    else splitSentencesAux (SentSt.norm (some c) [c]) t

/-- Split a text into sentence fragments, removing each boundary run. -/
def splitSentences (l : List Char) : List (List Char) :=
  splitSentencesAux (SentSt.norm none []) l

/-- Leading characters stripped from the current sentence: quotation marks,
curly opening quotes and whitespace. -/
def leadQuote (c : Char) : Bool :=
  c == '"' || c == '\'' || c == Char.ofNat 0x201C || c == Char.ofNat 0x2018 || isPySpace c

/-- Trailing characters stripped from the last selected word. -/
def trailPunct (c : Char) : Bool :=
  c == '.' || c == ',' || c == ';' || c == ':' || c == '!' || c == '?' ||
    c == '"' || c == '\'' || c == Char.ofNat 0x201D || c == Char.ofNat 0x2019

/-- Embedding of IncipitExtractor.get_sentence_start. -/
def get_sentence_start (text : String) (position : Nat) (word_count : Nat) : String :=
  let text_before := text.data.take position
  if text_before.isEmpty then ""
  else
    let sentences := splitSentences text_before
    let current0 := pyStrip ((sentences.getLast?).getD [])
    let current := current0.dropWhile leadQuote
    let sel := (pyWords current).take word_count
    let sel2 : List (List Char) :=
      match sel.reverse with
      | [] => []
      | lastw :: restRev =>
        (((lastw.reverse.dropWhile trailPunct).reverse) :: restRev).reverse
    ⟨joinSpace sel2⟩

/-! ### Helper lemmas: the error path and the intended engine -/

/-- The dash replacement template is rejected by the template parser: the
backslash-u escape is a bad escape, reported at position two, the position
of its backslash. -/
theorem parse_template_dash_err :
    parse_template 2 dashTemplate = Except.error (ReError.badEscape 'u' 2) := rfl

/-- clean_text_formatting raises the bad-escape error for every input. -/
theorem clean_text_formatting_raises (s : String) :
    clean_text_formatting s = Except.error (ReError.badEscape 'u' 2) := rfl

/-- parse_citation raises the bad-escape error for every input. -/
theorem parse_citation_raises (raw : String) :
    parse_citation raw = Except.error (ReError.badEscape 'u' 2) := by
  unfold parse_citation
  rw [clean_text_formatting_raises]

/-- process raises the bad-escape error for every state and every input. -/
theorem process_raises (st : CMState) (raw : String) :
    process st raw = Except.error (ReError.badEscape 'u' 2) := by
  unfold process
  rw [parse_citation_raises]

/-- Unfolding of the intended-mode engine in its short-note branch. -/
theorem process_intended_short_eq (st : CMState) (raw : String) (prev_data : Record)
    (hat : pyTruthy (parse_citation_intended raw).title = true ∨
      pyTruthy (parse_citation_intended raw).author = true)
    (hib : ibidCond st
      (generate_fingerprint (parse_citation_intended raw).author
        (parse_citation_intended raw).title) = false)
    (hseen : seenLookup st.seen_works
      (generate_fingerprint (parse_citation_intended raw).author
        (parse_citation_intended raw).title) = some prev_data) :
    process_intended st raw =
      (shortNoteBody (parse_citation_intended raw) prev_data ++
        pageSuffix (parse_citation_intended raw).page,
       { st with history := st.history ++
          [{ parse_citation_intended raw with fingerprint :=
              (generate_fingerprint (parse_citation_intended raw).author
                (parse_citation_intended raw).title) }] }) := by
  have hcond : (!pyTruthy (parse_citation_intended raw).title &&
      !pyTruthy (parse_citation_intended raw).author) = false := by
    rcases hat with h | h <;> simp [h]
  simp only [process_intended, emitNote, hcond, hib, hseen, Bool.false_eq_true,
    if_false, if_true]

/-! ### Claim C1 -/

/-- C1: what the code actually does in the Ibid scenario.  Every call to
process raises the bad-escape template error: parse_citation first runs
clean_text_formatting, whose dash substitution hands re.sub a replacement
template the eagerly-run template parser rejects, so the engine never
returns any string, let alone Ibid.  Under the spec-intended dash
normalization the Ibid rule does hold: an adjacent repeat of a legal
citation yields exactly Ibid with the newly parsed page appended. -/
theorem ibid_rule_unreachable :
    (∀ (st : CMState) (raw : String),
        process st raw = Except.error (ReError.badEscape 'u' 2)) ∧
    process {} "Roe v. Wade, 410" = Except.error (ReError.badEscape 'u' 2) ∧
    processAll_intended ["Roe v. Wade, 410", "Roe v. Wade, 415"] =
      ["Roe v. Wade, 410", "Ibid., 415"] :=
  ⟨fun st raw => process_raises st raw, process_raises {} _, by decide⟩

/-! ### Claim C2 -/

/-- C2 counterexample: the three calls of the claimed scenario each raise
the bad-escape template error, so the output for the repeated citation is
never the short-note form; and even under the spec-intended normalization
the claim fails on its pass-through parenthetical: the middle note parses
with neither author nor title, is not appended to history, and the third
output is Ibid, not a short note, although the first and third citations
share a fingerprint with a different citation between them. -/
theorem short_note_passthrough_cex :
    process {} "Roe v. Wade, 410" = Except.error (ReError.badEscape 'u' 2) ∧
    process {} ", Deposition" = Except.error (ReError.badEscape 'u' 2) ∧
    process {} "Roe v. Wade, 415" = Except.error (ReError.badEscape 'u' 2) ∧
    generate_fingerprint (parse_citation_intended "Roe v. Wade, 410").author
        (parse_citation_intended "Roe v. Wade, 410").title =
      generate_fingerprint (parse_citation_intended "Roe v. Wade, 415").author
        (parse_citation_intended "Roe v. Wade, 415").title ∧
    pyTruthy (parse_citation_intended ", Deposition").title = false ∧
    pyTruthy (parse_citation_intended ", Deposition").author = false ∧
    processAll_intended ["Roe v. Wade, 410", ", Deposition", "Roe v. Wade, 415"] =
      ["Roe v. Wade, 410", ", Deposition", "Ibid., 415"] :=
  ⟨process_raises {} _, process_raises {} _, process_raises {} _,
   by decide, by decide, by decide, by decide⟩

/-- C2 amended: in the shipped code process raises the template error on
every call and no short note is ever emitted.  Under the spec-intended
normalization, whenever the current record has an author or a title, its
fingerprint differs from the fingerprint of the last history entry, and
the fingerprint already occurs in the seen-works map, the engine emits the
short-note form: this covers a repeat after a different intervening
citation that was itself appended to history, while an unparseable
pass-through is not appended and does not break Ibid adjacency. -/
theorem short_note_rule_amended (st : CMState) (raw : String) (prev_data : Record)
    (hat : pyTruthy (parse_citation_intended raw).title = true ∨
      pyTruthy (parse_citation_intended raw).author = true)
    (hnadj : ibidCond st
      (generate_fingerprint (parse_citation_intended raw).author
        (parse_citation_intended raw).title) = false)
    (hseen : seenLookup st.seen_works
      (generate_fingerprint (parse_citation_intended raw).author
        (parse_citation_intended raw).title) = some prev_data) :
    process st raw = Except.error (ReError.badEscape 'u' 2) ∧
    (process_intended st raw).1 =
      shortNoteBody (parse_citation_intended raw) prev_data ++
        pageSuffix (parse_citation_intended raw).page := by
  refine ⟨process_raises st raw, ?_⟩
  rw [process_intended_short_eq st raw prev_data hat hnadj hseen]

/-- Witness for C2: a legal citation repeated after a different, recorded
citation takes the short-note branch of the intended engine, while the
shipped process raises on the same call. -/
theorem short_note_rule_amended_witness :
    process (processState_intended ["Roe v. Wade, 410", "Doe J. Title. JAMA 5, 3."])
        "Roe v. Wade, 415" = Except.error (ReError.badEscape 'u' 2) ∧
    (process_intended
        (processState_intended ["Roe v. Wade, 410", "Doe J. Title. JAMA 5, 3."])
        "Roe v. Wade, 415").1 = "Roe v. Wade, 415" := by
  have h := short_note_rule_amended
    (processState_intended ["Roe v. Wade, 410", "Doe J. Title. JAMA 5, 3."])
    "Roe v. Wade, 415"
    { ctype := "legal", title := some "Roe v. Wade", page := some "410",
      fingerprint := some "no_auth_roevwade" }
    (Or.inl (by decide)) (by decide) (by decide)
  refine ⟨h.1, ?_⟩
  rw [h.2]
  decide

/-! ### Claim C9 -/

/-- C9: what the code actually does around the short-note derivation.  The
engine raises the bad-escape template error on every process call, so the
short-note branch is dead code and no short note is ever emitted.  The
short-title helper itself is real and reachable: it maps the claimed
example to Quiet Revolution, and the intended-mode engine, repeating a
medical citation non-adjacently, renders the author plus that short title
derived from the first-seen record. -/
theorem short_title_derivation_unreachable :
    (∀ (st : CMState) (raw : String),
        process st raw = Except.error (ReError.badEscape 'u' 2)) ∧
    get_short_title (some "The Quiet Revolution: A Study of Reform") = "Quiet Revolution" ∧
    processAll_intended
        ["Doe J. The Quiet Revolution: A Study of Reform. JAMA 12, 45.",
         "Roe v. Wade, 410",
         "Doe J. The Quiet Revolution: A Study of Reform. JAMA 12, 60."] =
      ["Doe J, The Quiet Revolution: A Study of Reform JAMA 12, 45",
       "Roe v. Wade, 410",
       "Doe J, Quiet Revolution, 60"] :=
  ⟨fun st raw => process_raises st raw, by decide, by decide⟩

/-! ### Claim C10 -/

/-- C10: what the code actually does on the title-less path.  Every process
call raises the bad-escape template error, so no record is ever appended
to history or recorded in the seen-works map and the fingerprint-none path
never runs.  Under the spec-intended normalization the claimed collapse is
real: both book citations with bare-name pre-publication segments parse
with a truthy author and an empty title, receive fingerprint none, and the
second, adjacent one is emitted as Ibid with its page although it cites an
entirely different work. -/
theorem titleless_collapse_unreachable :
    (∀ (st : CMState) (raw : String),
        process st raw = Except.error (ReError.badEscape 'u' 2)) ∧
    pyTruthy (parse_citation_intended "Smith, John (Boston: Pub, 1999), 45.").author = true ∧
    pyTruthy (parse_citation_intended "Smith, John (Boston: Pub, 1999), 45.").title = false ∧
    generate_fingerprint
        (parse_citation_intended "Smith, John (Boston: Pub, 1999), 45.").author
        (parse_citation_intended "Smith, John (Boston: Pub, 1999), 45.").title = none ∧
    pyTruthy (parse_citation_intended "Jones, Mary (Paris: Gallimard, 2001), 10.").author = true ∧
    pyTruthy (parse_citation_intended "Jones, Mary (Paris: Gallimard, 2001), 10.").title = false ∧
    processAll_intended ["Smith, John (Boston: Pub, 1999), 45.",
                         "Jones, Mary (Paris: Gallimard, 2001), 10."] =
      ["John Smith,  (Boston: Pub, 1999), 45", "Ibid., 10"] :=
  ⟨fun st raw => process_raises st raw, by decide, by decide, by decide,
   by decide, by decide, by decide⟩

/-! ### Claim C3 -/

/-- C3: what the code actually does on the end-to-end example: both
parse_citation and process raise the bad-escape template error inside
clean_text_formatting before any parsing happens, so none of the claimed
fields and none of the claimed output is ever produced.  A second
divergence lies behind the first: under the spec-intended normalization
the publication regex, searched leftmost, already matches just after the
first comma, because its pre-colon class admits letters, whitespace and
periods, so the captured publication swallows the author initial and the
whole title and the full note still differs from the claimed one. -/
theorem freud_end_to_end_raises :
    parse_citation "Freud, S. The Interpretation of Dreams. New York: Macmillan, 1913, 45." =
      Except.error (ReError.badEscape 'u' 2) ∧
    process {} "Freud, S. The Interpretation of Dreams. New York: Macmillan, 1913, 45." =
      Except.error (ReError.badEscape 'u' 2) ∧
    parse_citation_intended
        "Freud, S. The Interpretation of Dreams. New York: Macmillan, 1913, 45." =
      { raw := "Freud, S. The Interpretation of Dreams. New York: Macmillan, 1913, 45.",
        ctype := "book", author := none, title := some "Freud",
        pub := some " S. The Interpretation of Dreams. New York: Macmillan, 1913",
        page := some "45" } ∧
    processAll_intended
        ["Freud, S. The Interpretation of Dreams. New York: Macmillan, 1913, 45."] =
      ["Freud ( S. The Interpretation of Dreams. New York: Macmillan, 1913), 45"] :=
  ⟨parse_citation_raises _, process_raises {} _, by decide, by decide⟩

/-! ### Claim C8 -/

/-- C8: what the sentence splitter actually does on the claimed example.
The negative lookbehinds of the pattern are anchored after the sentence
punctuation, where an abbreviation letter can never sit, so they are
vacuous: the splitter breaks after the abbreviation Dr despite the claimed
exception set, producing a boundary the claim says must not exist, and an
offset at the end of the second sentence yields a fragment starting at
Smith rather than at Dr. -/
theorem sentence_split_dr_smith :
    splitSentences "Dr. Smith argued. He lost his case.".data =
      ["Dr.".data, "Smith argued.".data, "He lost his case.".data] ∧
    get_sentence_start "Dr. Smith argued. He lost his case." 17 3 = "Smith argued" ∧
    get_sentence_start "Dr. Smith argued. He lost his case." 35 3 = "He lost his" := by
  decide

/-! ### Claim C4 -/

/-- C4: what the code actually does at the cascade boundary.  parse_citation
raises for every input and never returns a record: its first step calls
clean_text_formatting outside any try, and the dash substitution there
rejects its replacement template eagerly, before any matching; the cascade
below, including the matcher-fault handling of the medical matcher, is
dead code in the shipped program. -/
theorem parse_citation_always_raises :
    parse_template 2 dashTemplate = Except.error (ReError.badEscape 'u' 2) ∧
    (∀ raw : String, parse_citation raw = Except.error (ReError.badEscape 'u' 2)) ∧
    parse_citation "" = Except.error (ReError.badEscape 'u' 2) :=
  ⟨parse_template_dash_err, fun raw => parse_citation_raises raw, parse_citation_raises ""⟩

/-! ### Claim C5 -/

/-- C5 counterexample: a text containing two journal names from the fixed
set, where the code splits at the four-letter JAMA although the thirty-one
character New England Journal of Medicine also occurs: the first journal in
the constructor list wins, not the longest literal match. -/
theorem medical_longest_match_cex :
    hasSub "Smith A. Title. JAMA and New England Journal of Medicine".data "JAMA".data = true ∧
    hasSub "Smith A. Title. JAMA and New England Journal of Medicine".data
      "New England Journal of Medicine".data = true ∧
    "JAMA".length < "New England Journal of Medicine".length ∧
    (parse_medical med_journals
        "Smith A. Title. JAMA and New England Journal of Medicine").map Record.pub =
      some (some "JAMA and New England Journal of Medicine") := by decide

/-- C5 amended: when two or more journal names of the fixed set occur in
the text, the medical matcher splits at the first matching journal in the
constructor list order, regardless of length: a listed journal that occurs
in the text and whose body succeeds determines the result, and a journal
that does not occur is skipped. -/
theorem medical_first_listed_wins :
    (∀ (j : String) (js : List String) (text : String) (r : Record),
        hasSub text.data j.data = true → medBody j text = Except.ok r →
        parse_medical (j :: js) text = some r) ∧
    (∀ (j : String) (js : List String) (text : String),
        hasSub text.data j.data = false →
        parse_medical (j :: js) text = parse_medical js text) := by
  constructor
  · intro j js text r h1 h2
    simp [parse_medical, h1, h2]
  · intro j js text h1
    simp [parse_medical, h1]

/-- Witness for C5: on the two-journal text the first listed journal, the
shorter JAMA, determines the split. -/
theorem medical_first_listed_wins_witness :
    parse_medical ["JAMA", "New England Journal of Medicine"]
        "Smith A. Title. JAMA and New England Journal of Medicine" =
      some { ctype := "medical", author := some "Smith A", title := some "Title",
             pub := some "JAMA and New England Journal of Medicine" } :=
  medical_first_listed_wins.1 "JAMA" ["New England Journal of Medicine"]
    "Smith A. Title. JAMA and New England Journal of Medicine"
    { ctype := "medical", author := some "Smith A", title := some "Title",
      pub := some "JAMA and New England Journal of Medicine" }
    (by decide) (by rfl)

/-! ### Claim C6 -/

/-- Splitting a concatenation at a separator character that occurs in
neither left part is injective. -/
theorem underscore_split_inj : ∀ (A1 A2 T1 T2 : List Char),
    '_' ∉ A1 → '_' ∉ A2 → A1 ++ '_' :: T1 = A2 ++ '_' :: T2 → A1 = A2 ∧ T1 = T2 := by
  intro A1
  induction A1 with
  | nil =>
    intro A2 T1 T2 _ h2 h
    cases A2 with
    | nil => simpa using h
    | cons b bs =>
      simp only [List.nil_append, List.cons_append] at h
      injection h with hb ht
      subst hb
      exact absurd (List.mem_cons_self _ _) h2
  | cons a as ih =>
    intro A2 T1 T2 h1 h2 h
    cases A2 with
    | nil =>
      simp only [List.cons_append, List.nil_append] at h
      injection h with hb ht
      subst hb
      exact absurd (List.mem_cons_self _ _) h1
    | cons b bs =>
      simp only [List.cons_append] at h
      injection h with hb ht
      subst hb
      obtain ⟨he, ht2⟩ := ih bs T1 T2
        (fun hm => h1 (List.mem_cons_of_mem _ hm))
        (fun hm => h2 (List.mem_cons_of_mem _ hm)) ht
      exact ⟨by rw [he], ht2⟩

/-- C6 counterexample: the underscore joining the two halves of the key is
itself a word character that normalization preserves, so two inputs whose
normalized authors differ and whose normalized truncated titles differ can
still collide when an underscore straddles the separator. -/
theorem fingerprint_injective_cex :
    generate_fingerprint (some "a") (some "b_c") = generate_fingerprint (some "a_b") (some "c") ∧
    normWord "a" ≠ normWord "a_b" ∧
    (normWord "b_c").take 25 ≠ (normWord "c").take 25 := by decide

/-- C6 amended: the fingerprint is none exactly when the title is empty or
absent; otherwise it is the normalized author (or the no_auth placeholder
for an absent or empty author) joined by an underscore to the first
twenty-five normalized title characters; same-author titles agreeing on
those twenty-five characters collide by design; and keys determine the
normalized author and truncated title whenever both authors are present
with underscore-free normalizations, the underscore caveat of the
counterexample being the only obstruction. -/
theorem fingerprint_spec :
    (∀ (a t : Option String), generate_fingerprint a t = none ↔ pyTruthy t = false) ∧
    (∀ (a t : Option String), pyTruthy t = true →
      generate_fingerprint a t = some ⟨(if pyTruthy a = true then normWord (pyStr a)
        else "no_auth".data) ++ '_' :: (normWord (pyStr t)).take 25⟩) ∧
    (∀ (a : Option String) (t1 t2 : String),
      (normWord t1).take 25 = (normWord t2).take 25 →
      pyTruthy (some t1) = true → pyTruthy (some t2) = true →
      generate_fingerprint a (some t1) = generate_fingerprint a (some t2)) ∧
    (∀ (a1 a2 t1 t2 : String),
      pyTruthy (some a1) = true → pyTruthy (some a2) = true →
      pyTruthy (some t1) = true → pyTruthy (some t2) = true →
      '_' ∉ normWord a1 → '_' ∉ normWord a2 →
      generate_fingerprint (some a1) (some t1) = generate_fingerprint (some a2) (some t2) →
      normWord a1 = normWord a2 ∧ (normWord t1).take 25 = (normWord t2).take 25) := by
  refine ⟨?_, ?_, ?_, ?_⟩
  · intro a t
    constructor
    · intro h
      cases hpt : pyTruthy t
      · rfl
      · exfalso
        revert h
        simp [generate_fingerprint, hpt]
    · intro h
      simp [generate_fingerprint, h]
  · intro a t ht
    cases t with
    | none => simp [pyTruthy] at ht
    | some s =>
      have hts : ¬s = "" := by simpa [pyTruthy] using ht
      cases a with
      | none => simp [generate_fingerprint, pyTruthy, pyStr, ht, hts]
      | some a' =>
        by_cases ha : a' = ""
        · subst ha
          simp [generate_fingerprint, pyTruthy, pyStr, ht, hts]
        · simp [generate_fingerprint, pyTruthy, pyStr, ht, hts, ha]
  · intro a t1 t2 htr h1 h2
    simp [generate_fingerprint, h1, h2, htr]
  · intro a1 a2 t1 t2 ha1 ha2 ht1 ht2 hu1 hu2 heq
    simp only [generate_fingerprint, ha1, ha2, ht1, ht2, Bool.not_true, Bool.false_eq_true,
      if_false, if_true, Option.some.injEq] at heq
    exact underscore_split_inj _ _ _ _ hu1 hu2 (congrArg String.data heq)

/-- Witness for C6: titles agreeing on their first twenty-five normalized
characters collide under one author, and equal keys with underscore-free
normalized authors force equal normalized components. -/
theorem fingerprint_spec_witness :
    generate_fingerprint (some "Freud") (some "The Interpretation of Dreams Vol I") =
      generate_fingerprint (some "Freud") (some "The Interpretation of Dreams Vol II") ∧
    (normWord "Smith" = normWord "SMITH!" ∧
     (normWord "Book One").take 25 = (normWord "BOOK-ONE").take 25) := by
  constructor
  · exact fingerprint_spec.2.2.1 (some "Freud") "The Interpretation of Dreams Vol I"
      "The Interpretation of Dreams Vol II" (by decide) (by decide) (by decide)
  · exact fingerprint_spec.2.2.2 "Smith" "SMITH!" "Book One" "BOOK-ONE"
      (by decide) (by decide) (by decide) (by decide) (by decide) (by decide) (by decide)

/-! ### Claim C7 -/

/-- The head of a dropWhile result never satisfies the predicate. -/
theorem head?_dropWhile_not (p : Char → Bool) :
    ∀ (l : List Char) (c : Char), (l.dropWhile p).head? = some c → p c = false := by
  intro l
  induction l with
  | nil => intro c h; cases h
  | cons a t ih =>
    intro c h
    rw [List.dropWhile_cons] at h
    by_cases hpa : p a
    · rw [if_pos hpa] at h
      exact ih c h
    · rw [if_neg hpa] at h
      cases h
      simpa using hpa

/-- A stripped string does not start with whitespace. -/
theorem pyStrip_head (l : List Char) (c : Char) (h : (pyStrip l).head? = some c) :
    isPySpace c = false := by
  have hpre : pyStrip l <+: pyStripLeft l := by
    unfold pyStrip pyStripRight
    have h1 : (pyStripLeft l).reverse.dropWhile isPySpace <:+ (pyStripLeft l).reverse :=
      List.dropWhile_suffix _
    have h2 := List.reverse_prefix.mpr h1
    simpa using h2
  obtain ⟨s, hs⟩ := hpre
  have hh : (pyStripLeft l).head? = some c := by
    rw [← hs]
    cases hps : pyStrip l with
    | nil => rw [hps] at h; cases h
    | cons x xs =>
      rw [hps] at h
      simpa using h
  exact head?_dropWhile_not isPySpace l c hh

/-- A stripped string does not end with whitespace. -/
theorem pyStrip_getLast (l : List Char) (c : Char) (h : (pyStrip l).getLast? = some c) :
    isPySpace c = false := by
  unfold pyStrip pyStripRight at h
  rw [List.getLast?_reverse] at h
  exact head?_dropWhile_not isPySpace _ c h

/-- The digit lookahead ignores a leading whitespace run. -/
theorem firstNonWs_append_ws :
    ∀ (w : List Char), (∀ c ∈ w, isPySpace c = true) →
      ∀ l, firstNonWsIsDigit (w ++ l) = firstNonWsIsDigit l := by
  intro w
  induction w with
  | nil => intro _ l; rfl
  | cons a t ih =>
    intro hw l
    have ha := hw a (List.mem_cons_self a t)
    simp only [List.cons_append, firstNonWsIsDigit, ha, if_true]
    exact ih (fun c hc => hw c (List.mem_cons_of_mem a hc)) l

/-- The whitespace-skipping state of the page scanner consumes a whitespace
run. -/
theorem pageSub_skipWs_ws :
    ∀ (w : List Char), (∀ c ∈ w, isPySpace c = true) →
      ∀ l, pageSubAux PageSt.skipWs (w ++ l) = pageSubAux PageSt.skipWs l := by
  intro w
  induction w with
  | nil => intro _ l; rfl
  | cons a t ih =>
    intro hw l
    have ha := hw a (List.mem_cons_self a t)
    simp only [List.cons_append, pageSubAux, ha, if_true]
    exact ih (fun c hc => hw c (List.mem_cons_of_mem a hc)) l

/-- A digit is not Python whitespace. -/
theorem digit_not_space (c : Char) (h : c.isDigit = true) : isPySpace c = false := by
  cases hsp : isPySpace c
  · rfl
  · exfalso
    have hc : ((((c = ' ' ∨ c = '\t') ∨ c = '\n') ∨ c = '\x0d') ∨ c = '\x0b') ∨
        c = '\x0c' := by
      simpa [isPySpace] using hsp
    rcases hc with ((((h' | h') | h') | h') | h') | h' <;> subst h' <;>
      exact absurd h (by decide)

/-- C7: what the code actually does, against the claim of a total
normalizer.  The replacement template of the dash substitution is rejected
by the eagerly-run template parser, backslash-u being a bad escape, so
clean_text_formatting raises for every input — the never-raises, total
clause of the claim is the opposite of the truth, and the dash rewrite is
never performed.  The rest of the claim describes the intent, which the
intended-mode normalizer satisfies: its output neither starts nor ends
with whitespace; its dash pass replaces each leftmost digit-hyphen-digit
occurrence by the two digits joined with the en dash U+2013; and its page
pass deletes p. or pp. together with following whitespace exactly when
preceded by whitespace, comma or open parenthesis and followed, after that
whitespace, by a digit, leaving the surrounding characters in place. -/
theorem clean_text_formatting_raises_spec :
    parse_template 2 dashTemplate = Except.error (ReError.badEscape 'u' 2) ∧
    (∀ s : String, clean_text_formatting s = Except.error (ReError.badEscape 'u' 2)) ∧
    (∀ (s : String) (c : Char),
        ((clean_text_formatting_intended s).data.head? = some c → isPySpace c = false) ∧
        ((clean_text_formatting_intended s).data.getLast? = some c → isPySpace c = false)) ∧
    enDash = Char.ofNat 0x2013 ∧
    (∀ (a b : Char) (t : List Char), a.isDigit = true → b.isDigit = true →
        dashSub (a :: '-' :: b :: t) = a :: enDash :: b :: dashSub t) ∧
    (∀ (lead : Char) (w : List Char) (d : Char) (rest : List Char),
        pageBehind lead = true → (∀ c ∈ w, isPySpace c = true) → d.isDigit = true →
        pageSubAux (PageSt.norm false) (lead :: 'p' :: 'p' :: '.' :: (w ++ d :: rest)) =
          lead :: pageSubAux (PageSt.norm false) (d :: rest) ∧
        pageSubAux (PageSt.norm false) (lead :: 'p' :: '.' :: (w ++ d :: rest)) =
          lead :: pageSubAux (PageSt.norm false) (d :: rest)) := by
  refine ⟨parse_template_dash_err, fun s => clean_text_formatting_raises s, ?_, rfl, ?_, ?_⟩
  · intro s c
    exact ⟨fun h => pyStrip_head _ c h, fun h => pyStrip_getLast _ c h⟩
  · intro a b t ha hb
    simp only [dashSub, dashSubAux, ha, hb, if_true]
    simp
  · intro lead w d rest hlead hw hd
    have hdns : isPySpace d = false := digit_not_space d hd
    have hfw : firstNonWsIsDigit (w ++ d :: rest) = true := by
      rw [firstNonWs_append_ws w hw]
      simp [firstNonWsIsDigit, hdns, hd]
    have hskip := pageSub_skipWs_ws w hw (d :: rest)
    constructor
    · simp [pageSubAux, hlead, hfw, hskip, hdns]
    · simp [pageSubAux, hlead, hfw, hskip, hdns]

/-- Witness for C7: the clause family applied at concrete inputs. -/
theorem clean_text_formatting_raises_spec_witness :
    dashSub ('1' :: '-' :: '2' :: ['x']) = '1' :: enDash :: '2' :: dashSub ['x'] ∧
    pageSubAux (PageSt.norm false) (' ' :: 'p' :: 'p' :: '.' :: ([' '] ++ '4' :: ['5'])) =
      ' ' :: pageSubAux (PageSt.norm false) ('4' :: ['5']) ∧
    (clean_text_formatting_intended " pp. 45 ").data.head? = some '4' ∧
    isPySpace '4' = false :=
  ⟨clean_text_formatting_raises_spec.2.2.2.2.1 '1' '2' ['x'] (by decide) (by decide),
   (clean_text_formatting_raises_spec.2.2.2.2.2 ' ' [' '] '4' ['5'] (by decide)
     (by decide) (by decide)).1,
   by decide,
   (clean_text_formatting_raises_spec.2.2.1 " pp. 45 " '4').1 (by decide)⟩

end Incipit

namespace IncipitScratch
open Incipit

example : clean_text_formatting_intended " pp. 101-105 " = "101–105" := by decide
example : clean_text_formatting " pp. 101-105 " = Except.error (ReError.badEscape 'u' 2) := by rfl
example : process {} "Roe v. Wade, 410" = Except.error (ReError.badEscape 'u' 2) := by rfl
example : parse_template 2 "\\1x\\2".data =
    Except.ok [TemplatePiece.group 1, TemplatePiece.lit 'x', TemplatePiece.group 2] := by rfl
example : parse_template 2 "\\3".data = Except.error (ReError.invalidGroupRef 3 1) := by rfl
example : parse_template 2 "\\123".data = Except.ok [TemplatePiece.lit 'S'] := by rfl
example : parse_template 2 "\\n\\t\\\\".data =
    Except.ok [TemplatePiece.lit '\n', TemplatePiece.lit '\t', TemplatePiece.lit '\\'] := by rfl
example : parse_template 2 "\\-".data =
    Except.ok [TemplatePiece.lit '\\', TemplatePiece.lit '-'] := by rfl
example : parse_template 2 "x\\".data = Except.error ReError.badEscapeEnd := by rfl
example : parse_template 2 "\\g<1>".data = Except.ok [TemplatePiece.group 1] := by rfl
example : parse_template 2 "\\g<9>".data = Except.error (ReError.invalidGroupRef 9 3) := by rfl
example : parse_template 2 "\\g1".data = Except.error ReError.missingLt := by rfl
example : clean_text_formatting_intended "1-2-3" = "1–2-3" := by decide
example : get_short_title (some "The Quiet Revolution: A Study of Reform") = "Quiet Revolution" := by decide
example : generate_fingerprint (some "S. Freud") (some "The Interpretation of Dreams") =
    some "sfreud_theinterpretationofdreams" := by decide
example : generate_fingerprint (some "John Smith") (some "") = none := by rfl
example : generate_fingerprint none (some "Roe v. Wade") = some "no_auth_roevwade" := by decide

example : parse_citation_intended "Roe v. Wade, 410" =
    { ctype := "legal", title := some "Roe v. Wade", page := some "410" } := by decide

example : parse_citation_intended ", Deposition" =
    { ctype := "transcript", author := some "", title := some "", pub := some "Deposition" } := by
  decide

example : processAll_intended ["Roe v. Wade, 410", ", Deposition", "Roe v. Wade, 415"] =
    ["Roe v. Wade, 410", ", Deposition", "Ibid., 415"] := by decide

example : parse_citation_intended "Freud, S. The Interpretation of Dreams. New York: Macmillan, 1913, 45." =
    { raw := "Freud, S. The Interpretation of Dreams. New York: Macmillan, 1913, 45.",
      ctype := "book", author := none, title := some "Freud",
      pub := some " S. The Interpretation of Dreams. New York: Macmillan, 1913",
      page := some "45" } := by decide

example : processAll_intended ["Freud, S. The Interpretation of Dreams. New York: Macmillan, 1913, 45."] =
    ["Freud ( S. The Interpretation of Dreams. New York: Macmillan, 1913), 45"] := by decide

example : parse_citation_intended "Smith A. Title. JAMA and New England Journal of Medicine" =
    { ctype := "medical", author := some "Smith A", title := some "Title",
      pub := some "JAMA and New England Journal of Medicine" } := by decide

example : parse_citation_intended "Smith, John (Boston: Pub, 1999), 45." =
    { raw := "Smith, John (Boston: Pub, 1999), 45.", ctype := "book",
      author := some "John Smith", title := some "",
      pub := some "Boston: Pub, 1999", page := some "45" } := by decide

example : processAll_intended ["Smith, John (Boston: Pub, 1999), 45.",
                      "Jones, Mary (Paris: Gallimard, 2001), 10."] =
    ["John Smith,  (Boston: Pub, 1999), 45", "Ibid., 10"] := by decide

example : parse_archival "Osheroff Arbitration Videos, Tape 2" =
    some { ctype := "archival", title := some "Osheroff Arbitration Videos",
           details := some "Osheroff Arbitration Videos, Tape 2" } := by decide

example : parse_archival "Menninger Foundation Archives, Topeka, Kansas" =
    some { ctype := "archival", title := some "Menninger Foundation",
           details := some "Menninger Foundation Archives, Topeka, Kansas" } := by decide

example : parse_archival "Karl Menninger Papers, Box 12" =
    some { ctype := "archival", title := some "Karl Menninger Papers",
           details := some "Karl Menninger Papers, Box 12" } := by decide

example : parse_archival "Smith Personal Archive" =
    some { ctype := "archival", title := some "Smith",
           details := some "Smith Personal Archive" } := by decide

example : parse_archival "Jones Collection, Houston" =
    some { ctype := "archival", title := some "Jones",
           details := some "Jones Collection, Houston" } := by decide

example : (⟨etalSub "Klerman GL, ET AL".data⟩ : String) = "Klerman GL, et al." := by decide
example : (⟨etalSub "Stretet al. x".data⟩ : String) = "Stretet al. x" := by decide
example : (⟨etalSub "et  al... y".data⟩ : String) = "et al... y" := by decide

example : parse_transcript "Klerman Deposition, Oct 15, 1985" =
    some { ctype := "transcript", author := some "Klerman Deposition",
           title := some "Klerman Deposition", pub := some "Oct 15" } := by decide

example : get_short_title (some "One Two Three Four Five Six Seven") =
    "One Two Three Four Five" := by decide

example : splitSentences "Dr. Smith argued. He lost his case.".data =
    ["Dr.".data, "Smith argued.".data, "He lost his case.".data] := by decide

example : get_sentence_start "Dr. Smith argued. He lost his case." 17 3 = "Smith argued" := by
  decide

example : get_sentence_start "Dr. Smith argued. He lost his case." 35 3 = "He lost his" := by
  decide

end IncipitScratch
